import Mathlib

/-
Verification of the goflash/benchmarks process-supervision and resilient
test-execution pipeline, as a shallow embedding of the Go source.

Conventions of the embedding:
* Go strings are Lean `String`; where kernel evaluation is needed
  (lower-casing, substring search, decimal parsing) we work on the
  underlying `List Char` (`String.data`).
* Go `int` counters are `Nat` (they only ever hold non-negative counts in
  the embedded code paths); values that Go prints via `%d` after a
  subtraction that can conceptually go negative are `Int`.
* Go `float64` arithmetic on configuration quantities (restart backoff,
  wrk duration estimation, latency parsing via `strconv.ParseFloat`) is
  modelled exactly over `ℚ` or over scaled decimal integers
  (mantissa / 10^scale); `time.Duration(float_expr)` truncation toward
  zero is modelled by integer truncation.
* Stateful Go methods that load the JSON snapshot, mutate it and save it
  (`Tracker.AddResult`, `Tracker.Finish`) are modelled as pure functions
  `ProgressState → ProgressState` (the store is read-modify-write with a
  single writer, per the design).
* Name changes forced by the development style: the Go type `Scenario`
  is `ScenarioCfg`, and fields holding a scenario display name
  (`TestResult.Scenario`, `ProgressState.CurrentScenario`) are
  `ScenarioName` / `CurrentScenarioName`.
-/

namespace GoBench

/-! ### String helpers (strings.Contains / strings.ToLower / suffixes) -/

/-- Lower-case a Go string, character-wise (`strings.ToLower`; the inputs
matched by the runner are ASCII). -/
def lowerChars (s : String) : List Char :=
  s.data.map Char.toLower

/-- Substring occurrence test on character lists: `containsSub pat s` is
`strings.Contains(s, pat)`. The empty pattern occurs in every string. -/
def containsSub (pat : List Char) : List Char → Bool
  | [] => pat.isEmpty
  | c :: rest => pat.isPrefixOf (c :: rest) || containsSub pat rest

/-- `strContains s pat` is Go `strings.Contains(s, pat)` on `String`s. -/
def strContains (s pat : String) : Bool :=
  containsSub pat.data s.data

/-- Suffix test on character lists (`strings.HasSuffix`). -/
def hasSuffixC (cs suffixChars : List Char) : Bool :=
  suffixChars.reverse.isPrefixOf cs.reverse

/-- Drop the last `n` characters (`strings.TrimSuffix` once the suffix is
known to be present and of length `n`). -/
def dropLastC (cs : List Char) (n : Nat) : List Char :=
  cs.take (cs.length - n)

/-- Trim leading and trailing space characters (`strings.TrimSpace`
restricted to the blank character, the only whitespace produced by the
tokenizer feeding `parseLatency`). -/
def trimC (cs : List Char) : List Char :=
  ((cs.dropWhile (fun c => c == ' ')).reverse.dropWhile (fun c => c == ' ')).reverse

/-! ### Runner.isRetryableError (runner.go) -/

/-- The fixed list of transient error patterns from `isRetryableError`. -/
def retryablePatterns : List String :=
  ["signal: killed",
   "killed",
   "out of memory",
   "resource temporarily unavailable",
   "too many open files",
   "connection refused",
   "connection reset",
   "timeout",
   "context deadline exceeded"]

/-- `Runner.isRetryableError`: an error string is retryable when some fixed
pattern occurs in it, case-insensitively
(`strings.Contains(strings.ToLower(errStr), strings.ToLower(pattern))`).
The `err == nil` guard of the Go function is outside the embedding: the
callers below only classify actual error strings. -/
def isRetryableError (errStr : String) : Bool :=
  retryablePatterns.any (fun pattern => containsSub (lowerChars pattern) (lowerChars errStr))

/-! ### Progress tracker state (internal/progress/progress.go) -/

/-- The fields of `types.TestResult` that the progress tracker reads
(`AddResult` only looks at `Framework`, `Scenario`, `Batch`); the metric
fields are irrelevant to the embedded operations and are omitted. -/
structure TestResultR where
  Framework : String
  ScenarioName : String
  Batch : Nat
  deriving DecidableEq, Repr

/-- The composite completion key `fmt.Sprintf("%s_%s_%d", result.Framework,
result.Scenario, result.Batch)` stored by `AddResult`. -/
def testKeyOf (result : TestResultR) : String :=
  result.Framework ++ "_" ++ result.ScenarioName ++ "_" ++ toString result.Batch

/-- `progress.ProgressState`, restricted to the fields the embedded
operations read or write (timestamps, run id and the config copy are
carried along unchanged by `AddResult`/`Finish` and are omitted). -/
structure ProgressState where
  CurrentFramework : String
  CurrentScenarioName : String
  CurrentBatch : Nat
  CompletedTests : Nat
  TotalTests : Nat
  CompletedTestsList : List String
  FailedTests : List String
  Results : List TestResultR
  Status : String
  deriving DecidableEq, Repr

/-- `Tracker.AddResult`: append the result, update the "current" pointers,
set `CompletedTests` to the length of the results list, and append the
composite key to `CompletedTestsList` only when it is not already present
(the linear `found` scan of the source). The surrounding load/save of the
snapshot is the read-modify-write this pure function performs. -/
def addResult (state : ProgressState) (result : TestResultR) : ProgressState :=
  let state1 : ProgressState :=
    { state with
      Results := state.Results ++ [result]
      CurrentFramework := result.Framework
      CurrentScenarioName := result.ScenarioName
      CurrentBatch := result.Batch }
  let state2 : ProgressState := { state1 with CompletedTests := state1.Results.length }
  let testKey := testKeyOf result
  let found := state2.CompletedTestsList.any (fun completed => completed == testKey)
  if found then state2
  else { state2 with CompletedTestsList := state2.CompletedTestsList ++ [testKey] }

/-- `Tracker.Finish` on a loaded snapshot: when `CompletedTests >=
TotalTests` mark the status `completed` and save (`true` in the second
component records that `SaveState` was called); otherwise leave the
snapshot untouched and unsaved, so a future run still resumes. -/
def finishState (state : ProgressState) : ProgressState × Bool :=
  if state.TotalTests ≤ state.CompletedTests then
    ({ state with Status := "completed" }, true)
  else
    (state, false)

/-! ### Runner configuration and resume-skip logic (runner.go) -/

/-- The fields of `types.Framework` read by the embedded runner code. -/
structure FrameworkCfg where
  Name : String
  URL : String
  deriving DecidableEq, Repr

/-- The fields of `types.Scenario` (Go type `Scenario`) read by the
embedded runner code. -/
structure ScenarioCfg where
  Name : String
  Method : String
  Path : String
  deriving DecidableEq, Repr

/-- The slice of `types.Config` driving the benchmark matrix: the
framework and scenario maps (modelled as association lists keyed by the
internal config key, in iteration order) and the batch count. -/
structure RunnerConfig where
  Frameworks : List (String × FrameworkCfg)
  Scenarios : List (String × ScenarioCfg)
  Batches : Nat
  deriving DecidableEq, Repr

/-- Go map lookup `m[k]` on the association-list model. -/
def lookupCfg {α : Type} (m : List (String × α)) (k : String) : Option α :=
  (m.find? (fun p => p.fst == k)).map Prod.snd

/-- The framework display name used for completion keys: the config entry's
`Name` when the internal key resolves, else the internal key itself. -/
def frameworkDisplayName (cfg : RunnerConfig) (frameworkName : String) : String :=
  match lookupCfg cfg.Frameworks frameworkName with
  | some framework => framework.Name
  | none => frameworkName

/-- The scenario display name used for completion keys (same fallback). -/
def scenarioDisplayName (cfg : RunnerConfig) (scenarioName : String) : String :=
  match lookupCfg cfg.Scenarios scenarioName with
  | some scenarioCfg => scenarioCfg.Name
  | none => scenarioName

/-- The composite key of one matrix cell `(frameworkKey, scenarioKey,
batch)`, built from display names exactly as `shouldSkipTest` builds
`testKey` (and as `AddResult` stores it, since results carry display
names). -/
def cellKey (cfg : RunnerConfig) (cell : String × String × Nat) : String :=
  frameworkDisplayName cfg cell.fst ++ "_" ++
    scenarioDisplayName cfg cell.snd.fst ++ "_" ++ toString cell.snd.snd

/-- `Runner.shouldSkipTest`: with no resume info never skip; otherwise
resolve display names through the config, build the composite key and scan
the persisted completed list for it. -/
def shouldSkipTest (cfg : RunnerConfig) (frameworkName scenarioName : String)
    (batch : Nat) (resumeCompleted : Option (List String)) : Bool :=
  match resumeCompleted with
  | none => false
  | some completedList =>
      let fdn := match lookupCfg cfg.Frameworks frameworkName with
        | some framework => framework.Name
        | none => frameworkName
      let sdn := match lookupCfg cfg.Scenarios scenarioName with
        | some scenarioCfg => scenarioCfg.Name
        | none => scenarioName
      let testKey := fdn ++ "_" ++ sdn ++ "_" ++ toString batch
      completedList.any (fun completed => completed == testKey)

/-- The matrix cells visited by the triple loop of `runBenchmarks`, in
iteration order: every framework, every scenario, batches `1..Batches`. -/
def matrixCells (cfg : RunnerConfig) : List (String × String × Nat) :=
  cfg.Frameworks.flatMap (fun f =>
    cfg.Scenarios.flatMap (fun s =>
      (List.range cfg.Batches).map (fun b => (f.fst, s.fst, b + 1))))

/-- The cells `runBenchmarks` skips (counting each as completed without
executing it): exactly those on which `shouldSkipTest` fires. -/
def skippedCells (cfg : RunnerConfig) (resumeCompleted : Option (List String)) :
    List (String × String × Nat) :=
  (matrixCells cfg).filter
    (fun cell => shouldSkipTest cfg cell.fst cell.snd.fst cell.snd.snd resumeCompleted)

/-- The cells `runBenchmarks` actually executes (`runTestWithRestart`):
the complement of the skipped ones, in iteration order. -/
def executedCells (cfg : RunnerConfig) (resumeCompleted : Option (List String)) :
    List (String × String × Nat) :=
  (matrixCells cfg).filter
    (fun cell => !(shouldSkipTest cfg cell.fst cell.snd.fst cell.snd.snd resumeCompleted))

/-! ### Runner.runTestWithRestart (runner.go)

The per-cell retry loop. The interactions with the outside world are
modelled as oracles indexed by call count: `ensureOk i` is the result of
the `i`-th `EnsureFrameworkRunning` call, `testErr i` of the `i`-th
`runTest` call (`none` = success), `healthy i` of the `i`-th
`IsFrameworkHealthy` call. The loop body is transcribed branch by branch;
sleeps only bump a counter. -/

/-- Oracle environment for one `runTestWithRestart` invocation. -/
structure RetryEnv where
  maxRetries : Nat
  ensureOk : Nat → Bool
  testErr : Nat → Option String
  healthy : Nat → Bool

/-- The mutable locals of `runTestWithRestart` plus instrumentation
counters (number of ensure/test/health calls and of sleeps performed). -/
structure RetrySt where
  attempt : Nat
  retryCount : Nat
  frameworkRestarts : Nat
  ensureCalls : Nat
  testCalls : Nat
  healthCalls : Nat
  sleepCalls : Nat
  lastErr : Option String
  deriving DecidableEq, Repr

/-- The all-zero initial locals. -/
def retrySt0 : RetrySt :=
  { attempt := 0, retryCount := 0, frameworkRestarts := 0, ensureCalls := 0,
    testCalls := 0, healthCalls := 0, sleepCalls := 0, lastErr := none }

/-- How `runTestWithRestart` returns: a parsed result, the
"unavailable after N restart attempts" error, or the final
"test failed after ..." error. -/
inductive RetryOutcome where
  | ok
  | unavailable (msg : String)
  | failed (msg : String)
  deriving DecidableEq, Repr

/-- `fmt.Errorf("test failed after %d retries and %d framework restarts:
%w", retryCount-1, frameworkRestarts, err)`. `retryCount-1` is Go `int`
arithmetic, hence `Int` here; a `nil` wrapped error (unreachable from the
claims' hypotheses) renders as Go would print it. -/
def failMsg (retries : Int) (restarts : Nat) (wrapped : Option String) : String :=
  "test failed after " ++ toString retries ++ " retries and " ++
    toString restarts ++ " framework restarts: " ++
    (match wrapped with
     | some e => e
     | none => "%!w(<nil>)")

/-- `fmt.Errorf("framework unavailable after %d restart attempts: ...")`
(the framework name and wrapped ensure error are abstracted). -/
def unavailableMsg (restarts : Nat) : String :=
  "framework unavailable after " ++ toString restarts ++ " restart attempts"

/-- One pass of the loop `for attempt := 0; attempt <= maxRetries;
attempt++` of `runTestWithRestart`, with `fuel` = number of loop
iterations still permitted (`maxRetries + 1 - attempt`); `fuel = 0` is the
loop exit, reaching the final `return nil, fmt.Errorf("test failed after
...")`. A `break` jumps to the same final return. The hard-coded
`maxFrameworkRestarts` is 3 as in the source. -/
def runTestWithRestart (env : RetryEnv) : Nat → RetrySt → RetryOutcome × RetrySt
  | 0, st =>
    (.failed (failMsg ((st.retryCount : Int) - 1) st.frameworkRestarts st.lastErr), st)
  | fuel + 1, st =>
    let ensureRes := env.ensureOk st.ensureCalls
    let st := { st with ensureCalls := st.ensureCalls + 1 }
    if !ensureRes then
      if st.frameworkRestarts < 3 then
        runTestWithRestart env fuel
          { st with frameworkRestarts := st.frameworkRestarts + 1,
                    sleepCalls := st.sleepCalls + 1, attempt := st.attempt + 1 }
      else
        (.unavailable (unavailableMsg 3), st)
    else
      let testRes := env.testErr st.testCalls
      let st := { st with testCalls := st.testCalls + 1 }
      match testRes with
      | none => (.ok, st)
      | some e =>
        let st := { st with retryCount := st.retryCount + 1, lastErr := some e }
        if !isRetryableError e then
          (.failed (failMsg ((st.retryCount : Int) - 1) st.frameworkRestarts st.lastErr), st)
        else if st.attempt < env.maxRetries then
          let healthRes := env.healthy st.healthCalls
          let st := { st with healthCalls := st.healthCalls + 1 }
          if !healthRes then
            if st.frameworkRestarts < 3 then
              let st := { st with frameworkRestarts := st.frameworkRestarts + 1 }
              let restartRes := env.ensureOk st.ensureCalls
              let st := { st with ensureCalls := st.ensureCalls + 1 }
              if !restartRes then
                runTestWithRestart env fuel { st with attempt := st.attempt + 1 }
              else
                runTestWithRestart env fuel
                  { st with sleepCalls := st.sleepCalls + 1, attempt := st.attempt + 1 }
            else
              (.failed (failMsg ((st.retryCount : Int) - 1) st.frameworkRestarts st.lastErr), st)
          else
            runTestWithRestart env fuel
              { st with sleepCalls := st.sleepCalls + 1, attempt := st.attempt + 1 }
        else
          runTestWithRestart env fuel { st with attempt := st.attempt + 1 }

/-! ### Process supervision: monitorProcess and the restart policy
(internal/process/manager.go) -/

/-- `process.ProcessState`. -/
inductive ProcState where
  | stopped
  | starting
  | running
  | failed
  | restarting
  deriving DecidableEq, Repr

/-- The per-target supervision state relevant to the monitor loop:
the restart counter, the lifecycle state and whether the monitor loop for
this target is still active (`monitoring = false` = the monitor goroutine
returned permanently). -/
structure MonitorState where
  restartCount : Nat
  state : ProcState
  monitoring : Bool
  deriving DecidableEq, Repr

/-- The state right after a successful `startProcess` with monitoring
attached: state `running`, restart count 0. -/
def monitorInit : MonitorState :=
  { restartCount := 0, state := .running, monitoring := true }

/-- One iteration of `monitorProcess` triggered by the supervised process
exiting (`cmd.Wait()` returning), within one supervision session with no
shutdown signal: mark `failed` (unless a concurrently decided restart left
the state `restarting`); if the restart count has reached `MaxRestarts`
stop monitoring permanently; else transition to `restarting`, increment
the restart count, and relaunch — on relaunch failure mark `failed` and
loop, on success the process is `running` again. `relaunchOk` is the
outcome of `startProcess`. -/
def monitorStep (maxRestarts : Nat) (s : MonitorState) (relaunchOk : Bool) : MonitorState :=
  if !s.monitoring then s
  else
    let s1 : MonitorState :=
      { s with state := if s.state = .restarting then s.state else .failed }
    if maxRestarts ≤ s1.restartCount then
      { s1 with monitoring := false }
    else
      let s2 : MonitorState :=
        { s1 with state := .restarting, restartCount := s1.restartCount + 1 }
      if relaunchOk then { s2 with state := .running } else { s2 with state := .failed }

/-- A whole supervision session: fold the monitor iterations over the
sequence of process-exit events (each tagged with its relaunch outcome). -/
def monitorRun (maxRestarts : Nat) (s : MonitorState) (events : List Bool) : MonitorState :=
  events.foldl (monitorStep maxRestarts) s

/-- Invariant of one supervision session: the restart count stays within
the budget, a permanently stopped monitor left the target `failed`, and a
live monitor never observes a process exit while `restarting` (the
serialized monitor sets `running`/`failed` before blocking again). -/
def MonitorInv (maxRestarts : Nat) (s : MonitorState) : Prop :=
  s.restartCount ≤ maxRestarts ∧
  (s.monitoring = false → s.state = .failed) ∧
  (s.monitoring = true → s.state ≠ .restarting)

/-- `min(maxDelay, baseDelay * (1 + restartCount * backoffMultiplier))`
exactly as `monitorProcess` computes it: the product first, then the cap
`if delay > policy.MaxRestartDelay { delay = policy.MaxRestartDelay }`.
Durations and the float64 multiplier are modelled over `ℚ`. -/
def computeRestartDelay (restartDelay maxRestartDelay backoffMultiplier : ℚ)
    (restartCount : Nat) : ℚ :=
  let delay := restartDelay * (1 + (restartCount : ℚ) * backoffMultiplier)
  if maxRestartDelay < delay then maxRestartDelay else delay

/-! ### parseLatency (runner.go)

`strconv.ParseFloat` of the decimal token is modelled exactly: a parsed
decimal is a sign, a mantissa and a power-of-ten scale (value =
± mantissa / 10^scale). `time.Duration(val * float64(unit))` is the exact
product truncated toward zero to integer nanoseconds; on every input whose
product is an integer (in particular all the spec's examples) this agrees
with the Go float64 computation. -/

/-- An exactly parsed decimal number: value = (sign) mantissa / 10^scale. -/
structure DecNum where
  neg : Bool
  mant : Nat
  scale : Nat
  deriving DecidableEq, Repr

/-- Digit-list to `Nat` (most significant first). -/
def natOfDigits (cs : List Char) : Nat :=
  cs.foldl (fun acc c => acc * 10 + (c.toNat - 48)) 0

/-- Parse an optionally signed decimal literal `[+-]?digits[.digits]?`
(the forms `12.` and `.5` that `strconv.ParseFloat` also accepts are
included; exponents and special values never occur in latency tokens and
are rejected). -/
def parseDecimalC (cs : List Char) : Option DecNum :=
  let signSplit : Bool × List Char :=
    match cs with
    | '-' :: rest => (true, rest)
    | '+' :: rest => (false, rest)
    | rest => (false, rest)
  let neg := signSplit.fst
  let body := signSplit.snd
  let split := body.span (fun c => !(c == '.'))
  let intPart := split.fst
  match split.snd with
  | [] =>
    if intPart.isEmpty || !intPart.all Char.isDigit then none
    else some { neg := neg, mant := natOfDigits intPart, scale := 0 }
  | _ :: fracPart =>
    if (intPart.isEmpty && fracPart.isEmpty) ||
        !intPart.all Char.isDigit || !fracPart.all Char.isDigit then none
    else some { neg := neg, mant := natOfDigits intPart * 10 ^ fracPart.length + natOfDigits fracPart,
                scale := fracPart.length }

/-- `time.Duration(val * float64(unit))`: the exact value
± (mant * unit) / 10^scale truncated toward zero, in nanoseconds. -/
def durationOfDecNum (d : DecNum) (unit : Nat) : Int :=
  let magnitude : Nat := d.mant * unit / 10 ^ d.scale
  if d.neg then -(magnitude : Int) else (magnitude : Int)

/-- `parseLatency`: trim, then try the suffixes `ms`, `us`, `s` in that
order (each scaling by the matching `time` unit in nanoseconds), else
parse the bare token as milliseconds; `none` is the
"unable to parse latency" error. -/
def parseLatency (s : String) : Option Int :=
  let cs := trimC s.data
  if hasSuffixC cs ['m', 's'] then
    (parseDecimalC (dropLastC cs 2)).map (fun v => durationOfDecNum v 1000000)
  else if hasSuffixC cs ['u', 's'] then
    (parseDecimalC (dropLastC cs 2)).map (fun v => durationOfDecNum v 1000)
  else if hasSuffixC cs ['s'] then
    (parseDecimalC (dropLastC cs 1)).map (fun v => durationOfDecNum v 1000000000)
  else
    (parseDecimalC cs).map (fun v => durationOfDecNum v 1000000)

/-! ### prepareWrkCommand (runner.go) -/

/-- The fields of `types.BenchmarkConfig` read by `prepareWrkCommand`. -/
structure BenchmarkCfg where
  Threads : Nat
  DefaultRequests : Int
  DefaultConnections : Nat
  DefaultDuration : String
  KeepAlive : Bool
  deriving DecidableEq, Repr

/-- Round half to even, the rounding `fmt.Sprintf("%.0f", x)` performs
(on the estimated durations in range, the float64 value is the exact
rational, so this is the printed integer). -/
def roundHalfEven (q : ℚ) : Int :=
  let f := Int.floor q
  let r := q - (f : ℚ)
  if r < 1 / 2 then f
  else if (1 : ℚ) / 2 < r then f + 1
  else if f % 2 = 0 then f else f + 1

/-- `Runner.prepareWrkCommand`, returning the argument list handed to the
`wrk` binary. When `DefaultRequests > 0` the request count is converted
into a duration: `estimatedDuration = DefaultRequests / 10000.0`, floored
at 1 second, printed with `%.0fs` for the `-d` flag — `wrk` never receives
a request count. Otherwise `-d DefaultDuration` is used. -/
def prepareWrkCommandArgs (cfg : BenchmarkCfg) (framework : FrameworkCfg)
    (scenarioC : ScenarioCfg) : List String :=
  let args := ["-t", toString cfg.Threads, "-c", toString cfg.DefaultConnections]
  let args :=
    if 0 < cfg.DefaultRequests then
      let estimatedRPS : ℚ := 10000
      let estimatedDuration := (cfg.DefaultRequests : ℚ) / estimatedRPS
      let estimatedDuration := if estimatedDuration < 1 then 1 else estimatedDuration
      args ++ ["-d", toString (roundHalfEven estimatedDuration) ++ "s"]
    else
      args ++ ["-d", cfg.DefaultDuration]
  let args := if cfg.KeepAlive then args ++ ["-H", "Connection: keep-alive"] else args
  let args := if scenarioC.Method = "POST" then args ++ ["-s", "wrk/post.lua"] else args
  args ++ [framework.URL ++ scenarioC.Path]

/-- A small concrete benchmark matrix used to exercise the resume logic on
explicit inputs: two frameworks, one scenario, two batches (4 cells). -/
def resumeDemoConfig : RunnerConfig :=
  { Frameworks := [("flash", { Name := "Flash", URL := "http://localhost:17780" }),
                   ("chi", { Name := "Chi", URL := "http://localhost:17781" })],
    Scenarios := [("ping", { Name := "Ping", Method := "GET", Path := "/ping" })],
    Batches := 2 }

/-! ## Helper lemmas -/

/-- Filtering by the negated predicate keeps exactly the complement. -/
theorem length_filter_not {α : Type} (p : α → Bool) (l : List α) :
    (l.filter (fun a => !(p a))).length = l.length - (l.filter p).length := by
  induction l with
  | nil => rfl
  | cons a t ih =>
      by_cases h : p a = true
      · simp [List.filter, h, ih]
      · have hf : p a = false := by simpa using h
        have hle : (t.filter p).length ≤ t.length := by
          simpa using (t.filter_sublist (p := p)).length_le
        simp [List.filter, hf, ih]
        omega

/-- On a duplicate-free list `L`, filtering by membership in a
duplicate-free list `c ⊆ L` keeps exactly `c.length` elements. -/
theorem length_filter_mem_of_nodup (L c : List String)
    (hL : L.Nodup) (hc : c.Nodup) (hsub : ∀ k ∈ c, k ∈ L) :
    (L.filter (fun k => decide (k ∈ c))).length = c.length := by
  have hnodupT : (L.filter (fun k => decide (k ∈ c))).Nodup :=
    hL.filter (fun k => decide (k ∈ c))
  have hmem : ∀ a, a ∈ L.filter (fun k => decide (k ∈ c)) ↔ a ∈ c := by
    intro a
    simp only [List.mem_filter, decide_eq_true_eq]
    exact ⟨fun h => h.2, fun h => ⟨hsub a h, h⟩⟩
  exact ((List.perm_ext_iff_of_nodup hnodupT hc).mpr hmem).length_eq

/-- The membership scan of `AddResult`/`shouldSkipTest` is list
membership. -/
theorem any_beq_iff_mem (l : List String) (k : String) :
    (l.any (fun x => x == k)) = true ↔ k ∈ l := by
  simp only [List.any_eq_true, beq_iff_eq]
  exact ⟨fun ⟨x, hx, he⟩ => he ▸ hx, fun h => ⟨k, h, rfl⟩⟩

/-- After `addResult`, the result's composite key is in the completed
list. -/
theorem testKey_mem_addResult (st : ProgressState) (r : TestResultR) :
    testKeyOf r ∈ (addResult st r).CompletedTestsList := by
  by_cases hm : testKeyOf r ∈ st.CompletedTestsList <;> simp [addResult, hm]

/-- `addResult` leaves the completed list unchanged when the key is
already present. -/
theorem addResult_list_of_mem (st : ProgressState) (r : TestResultR)
    (h : testKeyOf r ∈ st.CompletedTestsList) :
    (addResult st r).CompletedTestsList = st.CompletedTestsList := by
  simp [addResult, h]

/-- `addResult` preserves freedom from duplicate completion keys. -/
theorem addResult_nodup (st : ProgressState) (r : TestResultR)
    (h : st.CompletedTestsList.Nodup) :
    (addResult st r).CompletedTestsList.Nodup := by
  by_cases hm : testKeyOf r ∈ st.CompletedTestsList
  · simpa [addResult, hm] using h
  · simp [addResult, hm, List.nodup_append, h]

/-- Folding `addResult` over any result sequence preserves freedom from
duplicate completion keys. -/
theorem foldl_addResult_nodup (rs : List TestResultR) :
    ∀ st : ProgressState, st.CompletedTestsList.Nodup →
      (rs.foldl addResult st).CompletedTestsList.Nodup := by
  induction rs with
  | nil => intro st h; simpa using h
  | cons r t ih => intro st h; exact ih (addResult st r) (addResult_nodup st r h)

/-! ## C2 -/

/-- C2: recording two results that carry the same (framework, scenario,
batch) composite key leaves the completed-key list length unchanged after
the second `AddResult`; and starting from a duplicate-free completed list,
any sequence of `AddResult` calls leaves the list duplicate-free. -/
theorem addResult_idempotent_key_and_nodup (st : ProgressState)
    (r1 r2 : TestResultR) (rs : List TestResultR)
    (hkey : testKeyOf r1 = testKeyOf r2)
    (hnd : st.CompletedTestsList.Nodup) :
    (addResult (addResult st r1) r2).CompletedTestsList.length =
      (addResult st r1).CompletedTestsList.length ∧
    (rs.foldl addResult st).CompletedTestsList.Nodup := by
  constructor
  · have hmem : testKeyOf r2 ∈ (addResult st r1).CompletedTestsList := by
      rw [← hkey]; exact testKey_mem_addResult st r1
    rw [addResult_list_of_mem _ _ hmem]
  · exact foldl_addResult_nodup rs st hnd

/-- Witness for C2 at a concrete state and concrete duplicate results. -/
theorem addResult_idempotent_key_and_nodup_witness :
    (addResult (addResult
        { CurrentFramework := "", CurrentScenarioName := "", CurrentBatch := 0,
          CompletedTests := 0, TotalTests := 4, CompletedTestsList := [],
          FailedTests := [], Results := [], Status := "running" }
        { Framework := "Flash", ScenarioName := "Ping", Batch := 1 })
        { Framework := "Flash", ScenarioName := "Ping", Batch := 1 }).CompletedTestsList.length =
      (addResult
        { CurrentFramework := "", CurrentScenarioName := "", CurrentBatch := 0,
          CompletedTests := 0, TotalTests := 4, CompletedTestsList := [],
          FailedTests := [], Results := [], Status := "running" }
        { Framework := "Flash", ScenarioName := "Ping", Batch := 1 }).CompletedTestsList.length ∧
    (([{ Framework := "Flash", ScenarioName := "Ping", Batch := 1 },
       { Framework := "Flash", ScenarioName := "Ping", Batch := 1 },
       { Framework := "Chi", ScenarioName := "Ping", Batch := 2 }] : List TestResultR).foldl
        addResult
        { CurrentFramework := "", CurrentScenarioName := "", CurrentBatch := 0,
          CompletedTests := 0, TotalTests := 4, CompletedTestsList := [],
          FailedTests := [], Results := [], Status := "running" }).CompletedTestsList.Nodup :=
  addResult_idempotent_key_and_nodup _ _ _ _ (by decide) (by decide)

/-! ## C3 -/

/-- C3: `Finish` saves the snapshot with status `completed` exactly when
the completed-test count has reached the total-test count; below the
total the snapshot is left entirely unchanged (status still `running`
when it was `running`, e.g. at 8 of 9), so a future run still resumes. -/
theorem finish_completion_gating (st : ProgressState) :
    ((finishState st).snd = true ↔ st.TotalTests ≤ st.CompletedTests) ∧
    (st.TotalTests ≤ st.CompletedTests → (finishState st).fst.Status = "completed") ∧
    (st.CompletedTests < st.TotalTests → (finishState st).fst = st) := by
  refine ⟨?_, ?_, ?_⟩
  · constructor
    · intro h
      by_contra hn
      have hlt : st.CompletedTests < st.TotalTests := by omega
      simp [finishState, Nat.not_le.mpr hlt] at h
    · intro h; simp [finishState, h]
  · intro h; simp [finishState, h]
  · intro h; simp [finishState, Nat.not_le.mpr h]

/-- Witness for C3 at the spec's example: 8 completed of 9 total, status
stays `running` and nothing is saved. -/
theorem finish_completion_gating_witness :
    (finishState
      { CurrentFramework := "f", CurrentScenarioName := "s", CurrentBatch := 8,
        CompletedTests := 8, TotalTests := 9, CompletedTestsList := [],
        FailedTests := [], Results := [], Status := "running" }).fst.Status = "running" ∧
    (finishState
      { CurrentFramework := "f", CurrentScenarioName := "s", CurrentBatch := 8,
        CompletedTests := 8, TotalTests := 9, CompletedTestsList := [],
        FailedTests := [], Results := [], Status := "running" }).snd = false := by
  have h := finish_completion_gating
    { CurrentFramework := "f", CurrentScenarioName := "s", CurrentBatch := 8,
      CompletedTests := 8, TotalTests := 9, CompletedTestsList := [],
      FailedTests := [], Results := [], Status := "running" }
  refine ⟨?_, ?_⟩
  · rw [h.2.2 (by decide)]
  · cases hs : (finishState
      { CurrentFramework := "f", CurrentScenarioName := "s", CurrentBatch := 8,
        CompletedTests := 8, TotalTests := 9, CompletedTestsList := [],
        FailedTests := [], Results := [], Status := "running" }).snd with
    | false => rfl
    | true => exact absurd (h.1.mp hs) (by decide)

/-! ## C9 -/

/-- C9: after `AddResult` the `CompletedTests` counter equals the length
of the `Results` list — the result is appended unconditionally, so even a
result whose composite key is already completed increments the counter
while the key list stays put — and `Finish` gates completion on this
counter (against `TotalTests`), not on the key-list length. -/
theorem completedTests_counts_results (st : ProgressState) (r : TestResultR) :
    (addResult st r).CompletedTests = (addResult st r).Results.length ∧
    (addResult st r).CompletedTests = st.Results.length + 1 ∧
    (testKeyOf r ∈ st.CompletedTestsList →
      (addResult st r).CompletedTestsList = st.CompletedTestsList ∧
      (addResult st r).CompletedTests = st.Results.length + 1) ∧
    ((finishState st).snd = true ↔ st.TotalTests ≤ st.CompletedTests) := by
  refine ⟨?_, ?_, ?_, ?_⟩
  · by_cases hm : testKeyOf r ∈ st.CompletedTestsList <;> simp [addResult, hm]
  · by_cases hm : testKeyOf r ∈ st.CompletedTestsList <;> simp [addResult, hm]
  · intro h
    exact ⟨addResult_list_of_mem st r h, by simp [addResult, h]⟩
  · constructor
    · intro h
      by_contra hn
      have hlt : st.CompletedTests < st.TotalTests := by omega
      simp [finishState, Nat.not_le.mpr hlt] at h
    · intro h; simp [finishState, h]

/-- Witness for C9: re-recording an already-completed key still bumps the
counter while the key list keeps length 1. -/
theorem completedTests_counts_results_witness :
    (addResult
      { CurrentFramework := "Flash", CurrentScenarioName := "Ping", CurrentBatch := 1,
        CompletedTests := 1, TotalTests := 4, CompletedTestsList := ["Flash_Ping_1"],
        FailedTests := [], Results := [{ Framework := "Flash", ScenarioName := "Ping", Batch := 1 }],
        Status := "running" }
      { Framework := "Flash", ScenarioName := "Ping", Batch := 1 }).CompletedTests = 2 ∧
    (addResult
      { CurrentFramework := "Flash", CurrentScenarioName := "Ping", CurrentBatch := 1,
        CompletedTests := 1, TotalTests := 4, CompletedTestsList := ["Flash_Ping_1"],
        FailedTests := [], Results := [{ Framework := "Flash", ScenarioName := "Ping", Batch := 1 }],
        Status := "running" }
      { Framework := "Flash", ScenarioName := "Ping", Batch := 1 }).CompletedTestsList
      = ["Flash_Ping_1"] := by
  have h := completedTests_counts_results
    { CurrentFramework := "Flash", CurrentScenarioName := "Ping", CurrentBatch := 1,
      CompletedTests := 1, TotalTests := 4, CompletedTestsList := ["Flash_Ping_1"],
      FailedTests := [], Results := [{ Framework := "Flash", ScenarioName := "Ping", Batch := 1 }],
      Status := "running" }
    { Framework := "Flash", ScenarioName := "Ping", Batch := 1 }
  refine ⟨h.2.1, ?_⟩
  exact (h.2.2.1 (by decide)).1

/-! ## C4 -/

/-- C4: the restart delay computed by `monitorProcess` is exactly
`min(maxRestartDelay, restartDelay * (1 + restartCount *
backoffMultiplier))`, and in particular never exceeds `maxRestartDelay`,
for every restart count. -/
theorem computeRestartDelay_eq_min_and_bounded
    (restartDelay maxRestartDelay backoffMultiplier : ℚ) (restartCount : Nat) :
    computeRestartDelay restartDelay maxRestartDelay backoffMultiplier restartCount =
      min maxRestartDelay (restartDelay * (1 + (restartCount : ℚ) * backoffMultiplier)) ∧
    computeRestartDelay restartDelay maxRestartDelay backoffMultiplier restartCount ≤
      maxRestartDelay := by
  simp only [computeRestartDelay]
  constructor
  · rw [min_def]
    split_ifs with h1 h2 h2 <;> linarith
  · split_ifs with h1
    · linarith
    · linarith [not_lt.mp h1]

/-! ## C5 -/

/-- A stopped monitor never acts again. -/
theorem monitorStep_frozen (maxRestarts : Nat) (s : MonitorState) (e : Bool)
    (h : s.monitoring = false) : monitorStep maxRestarts s e = s := by
  simp [monitorStep, h]

/-- A stopped monitor never acts again, over any further event sequence. -/
theorem monitorRun_frozen (maxRestarts : Nat) (events : List Bool) :
    ∀ s : MonitorState, s.monitoring = false →
      monitorRun maxRestarts s events = s := by
  induction events with
  | nil => intro s _; rfl
  | cons e t ih =>
      intro s h
      show monitorRun maxRestarts (monitorStep maxRestarts s e) t = s
      rw [monitorStep_frozen maxRestarts s e h]
      exact ih s h

/-- Each monitor iteration can only keep or increment the restart count. -/
theorem monitorStep_mono (maxRestarts : Nat) (s : MonitorState) (e : Bool) :
    s.restartCount ≤ (monitorStep maxRestarts s e).restartCount := by
  by_cases hm : s.monitoring = false
  · rw [monitorStep_frozen maxRestarts s e hm]
  · have hm' : s.monitoring = true := by simpa using hm
    simp only [monitorStep, hm', Bool.not_true, Bool.false_eq_true, if_false]
    split_ifs <;> simp

/-- While the monitor is live and the budget not exhausted, a process exit
increments the restart counter by exactly one (one restart decision). -/
theorem monitorStep_incr (maxRestarts : Nat) (s : MonitorState) (e : Bool)
    (hm : s.monitoring = true) (hc : s.restartCount < maxRestarts) :
    (monitorStep maxRestarts s e).restartCount = s.restartCount + 1 := by
  simp only [monitorStep, hm, Bool.not_true, Bool.false_eq_true, if_false]
  rw [if_neg (by simpa using Nat.not_le.mpr hc)]
  split_ifs <;> rfl

/-- The invariant is preserved by each monitor iteration. -/
theorem monitorStep_inv (maxRestarts : Nat) (s : MonitorState) (e : Bool)
    (h : MonitorInv maxRestarts s) : MonitorInv maxRestarts (monitorStep maxRestarts s e) := by
  obtain ⟨h1, h2, h3⟩ := h
  by_cases hm : s.monitoring = false
  · rw [monitorStep_frozen maxRestarts s e hm]; exact ⟨h1, h2, h3⟩
  · have hm' : s.monitoring = true := by simpa using hm
    have hns : s.state ≠ .restarting := h3 hm'
    simp only [monitorStep, hm', Bool.not_true, Bool.false_eq_true, if_false,
      if_neg hns]
    by_cases hc : maxRestarts ≤ s.restartCount
    · rw [if_pos hc]
      exact ⟨h1, fun _ => rfl, fun hmt => by simp at hmt⟩
    · rw [if_neg hc]
      have hcount : s.restartCount + 1 ≤ maxRestarts := Nat.lt_iff_add_one_le.mp (Nat.not_le.mp hc)
      split_ifs
      · exact ⟨hcount, fun hmf => by simp at hmf, fun _ => by simp⟩
      · exact ⟨hcount, fun hmf => by simp at hmf, fun _ => by simp⟩

/-- The invariant is preserved by a whole supervision session. -/
theorem monitorRun_inv (maxRestarts : Nat) (events : List Bool) :
    ∀ s : MonitorState, MonitorInv maxRestarts s →
      MonitorInv maxRestarts (monitorRun maxRestarts s events) := by
  induction events with
  | nil => intro s h; exact h
  | cons e t ih =>
      intro s h
      exact ih (monitorStep maxRestarts s e) (monitorStep_inv maxRestarts s e h)

/-- A session splits as a fold. -/
theorem monitorRun_append (maxRestarts : Nat) (s : MonitorState)
    (events more : List Bool) :
    monitorRun maxRestarts s (events ++ more) =
      monitorRun maxRestarts (monitorRun maxRestarts s events) more :=
  List.foldl_append _ _ _ _

/-- C5: within one supervision session starting from a freshly launched
target, the restart counter stays ≤ `maxRestarts`, never decreases at a
process-exit event, increases by exactly one per restart decision (live
monitor, budget not yet exhausted), and once the monitor has stopped the
target is `failed` and every further process exit changes nothing — no
restart is ever attempted again. -/
theorem monitor_restart_count_monotone_capped (maxRestarts : Nat)
    (events more : List Bool) (e : Bool) :
    (monitorRun maxRestarts monitorInit events).restartCount ≤ maxRestarts ∧
    (monitorRun maxRestarts monitorInit events).restartCount ≤
      (monitorStep maxRestarts (monitorRun maxRestarts monitorInit events) e).restartCount ∧
    ((monitorRun maxRestarts monitorInit events).monitoring = true →
      (monitorRun maxRestarts monitorInit events).restartCount < maxRestarts →
      (monitorStep maxRestarts (monitorRun maxRestarts monitorInit events) e).restartCount =
        (monitorRun maxRestarts monitorInit events).restartCount + 1) ∧
    ((monitorRun maxRestarts monitorInit events).monitoring = false →
      (monitorRun maxRestarts monitorInit events).state = .failed ∧
      monitorRun maxRestarts monitorInit (events ++ more) =
        monitorRun maxRestarts monitorInit events) := by
  have hinv : MonitorInv maxRestarts (monitorRun maxRestarts monitorInit events) :=
    monitorRun_inv maxRestarts events monitorInit
      ⟨Nat.zero_le _, fun h => by simp [monitorInit] at h, fun _ => by simp [monitorInit]⟩
  refine ⟨hinv.1, monitorStep_mono _ _ _, monitorStep_incr _ _ _, ?_⟩
  intro hstop
  refine ⟨hinv.2.1 hstop, ?_⟩
  rw [monitorRun_append]
  exact monitorRun_frozen maxRestarts more _ hstop

/-- Witness for C5: budget 2, three crashes with successful relaunches —
the counter reaches 2, the monitor stops with the target `failed`, and a
fourth crash changes nothing. -/
theorem monitor_restart_count_monotone_capped_witness :
    (monitorRun 2 monitorInit [true, true, true]).restartCount ≤ 2 ∧
    (monitorRun 2 monitorInit [true, true, true]).state = .failed ∧
    monitorRun 2 monitorInit ([true, true, true] ++ [true]) =
      monitorRun 2 monitorInit [true, true, true] := by
  have h := monitor_restart_count_monotone_capped 2 [true, true, true] [true] true
  have hstop := h.2.2.2 (by decide)
  exact ⟨h.1, hstop.1, hstop.2⟩

/-! ## C6 -/

/-- When the framework is always available and healthy and every test
attempt fails with the same retryable error, each loop iteration consumes
exactly one test attempt and one retry, touches no framework restart, and
the loop ends in the final "test failed after ..." return. -/
theorem rtwr_all_retryable (env : RetryEnv) (e : String)
    (hens : ∀ i, env.ensureOk i = true)
    (htest : ∀ i, env.testErr i = some e)
    (hret : isRetryableError e = true)
    (hheal : ∀ i, env.healthy i = true) :
    ∀ (fuel : Nat) (st : RetrySt),
      (runTestWithRestart env fuel st).fst =
        .failed (failMsg ((st.retryCount : Int) + (fuel : Int) - 1) st.frameworkRestarts
          (if fuel = 0 then st.lastErr else some e)) ∧
      (runTestWithRestart env fuel st).snd.testCalls = st.testCalls + fuel ∧
      (runTestWithRestart env fuel st).snd.retryCount = st.retryCount + fuel ∧
      (runTestWithRestart env fuel st).snd.frameworkRestarts = st.frameworkRestarts := by
  intro fuel
  induction fuel with
  | zero => intro st; simp [runTestWithRestart]
  | succ f ih =>
      intro st
      rcases Nat.lt_or_ge st.attempt env.maxRetries with ha | ha
      · have hstep : runTestWithRestart env (f + 1) st =
            runTestWithRestart env f
              { st with attempt := st.attempt + 1, ensureCalls := st.ensureCalls + 1,
                        testCalls := st.testCalls + 1, retryCount := st.retryCount + 1,
                        healthCalls := st.healthCalls + 1, sleepCalls := st.sleepCalls + 1,
                        lastErr := some e } := by
          simp [runTestWithRestart, hens, htest, hret, hheal, ha]
        obtain ⟨h1, h2, h3, h4⟩ := ih
          { st with attempt := st.attempt + 1, ensureCalls := st.ensureCalls + 1,
                    testCalls := st.testCalls + 1, retryCount := st.retryCount + 1,
                    healthCalls := st.healthCalls + 1, sleepCalls := st.sleepCalls + 1,
                    lastErr := some e }
        rw [hstep]
        refine ⟨?_, ?_, ?_, ?_⟩
        · rw [h1]
          congr 1
          push_cast
          ring_nf
          simp only [ite_self]
        · rw [h2]; simp; omega
        · rw [h3]; simp; omega
        · rw [h4]
      · have ha' : ¬ st.attempt < env.maxRetries := Nat.not_lt.mpr ha
        have hstep : runTestWithRestart env (f + 1) st =
            runTestWithRestart env f
              { st with attempt := st.attempt + 1, ensureCalls := st.ensureCalls + 1,
                        testCalls := st.testCalls + 1, retryCount := st.retryCount + 1,
                        lastErr := some e } := by
          simp [runTestWithRestart, hens, htest, hret, ha']
        obtain ⟨h1, h2, h3, h4⟩ := ih
          { st with attempt := st.attempt + 1, ensureCalls := st.ensureCalls + 1,
                    testCalls := st.testCalls + 1, retryCount := st.retryCount + 1,
                    lastErr := some e }
        rw [hstep]
        refine ⟨?_, ?_, ?_, ?_⟩
        · rw [h1]
          congr 1
          push_cast
          ring_nf
          simp only [ite_self]
        · rw [h2]; simp; omega
        · rw [h3]; simp; omega
        · rw [h4]

/-- C6: when the target stays available and healthy and every test
attempt fails with the same retryable error, `runTestWithRestart` performs
exactly `maxRetries + 1` test attempts (each counted as a retry, no
framework restart consumed) and then fails with the error text naming
`maxRetries` retries and `0` framework restarts wrapping the last test
error. -/
theorem retry_exhaustion (env : RetryEnv) (e : String)
    (hens : ∀ i, env.ensureOk i = true)
    (htest : ∀ i, env.testErr i = some e)
    (hret : isRetryableError e = true)
    (hheal : ∀ i, env.healthy i = true) :
    (runTestWithRestart env (env.maxRetries + 1) retrySt0).fst =
      .failed (failMsg (env.maxRetries : Int) 0 (some e)) ∧
    (runTestWithRestart env (env.maxRetries + 1) retrySt0).snd.testCalls =
      env.maxRetries + 1 ∧
    (runTestWithRestart env (env.maxRetries + 1) retrySt0).snd.retryCount =
      env.maxRetries + 1 ∧
    (runTestWithRestart env (env.maxRetries + 1) retrySt0).snd.frameworkRestarts = 0 := by
  obtain ⟨h1, h2, h3, h4⟩ :=
    rtwr_all_retryable env e hens htest hret hheal (env.maxRetries + 1) retrySt0
  refine ⟨?_, ?_, ?_, ?_⟩
  · rw [h1]
    congr 1
    simp only [retrySt0, Nat.succ_ne_zero, if_false]
    push_cast
    ring_nf
  · simpa [retrySt0] using h2
  · simpa [retrySt0] using h3
  · simpa [retrySt0] using h4

/-- Witness for C6: `maxRetries = 2`, every attempt times out — 3 test
attempts, then the aggregate failure message. -/
theorem retry_exhaustion_witness :
    (runTestWithRestart
      { maxRetries := 2, ensureOk := fun _ => true, testErr := fun _ => some "timeout",
        healthy := fun _ => true } 3 retrySt0).fst =
      .failed (failMsg 2 0 (some "timeout")) ∧
    (runTestWithRestart
      { maxRetries := 2, ensureOk := fun _ => true, testErr := fun _ => some "timeout",
        healthy := fun _ => true } 3 retrySt0).snd.testCalls = 3 := by
  have h := retry_exhaustion
    { maxRetries := 2, ensureOk := fun _ => true, testErr := fun _ => some "timeout",
      healthy := fun _ => true } "timeout"
    (fun _ => rfl) (fun _ => rfl) (by decide) (fun _ => rfl)
  exact ⟨by simpa using h.1, by simpa using h.2.1⟩

/-! ## C7 -/

/-- C7: if the first test attempt fails with an error matching none of the
fixed retryable patterns (case-insensitive substring match), the cell
fails at once: one test attempt, no sleep, no further attempt, with the
failure message naming 0 retries and 0 framework restarts. -/
theorem nonretryable_immediate_fail (env : RetryEnv) (e : String)
    (hens : env.ensureOk 0 = true)
    (htest : env.testErr 0 = some e)
    (hpat : ∀ p ∈ retryablePatterns, containsSub (lowerChars p) (lowerChars e) = false) :
    runTestWithRestart env (env.maxRetries + 1) retrySt0 =
      (.failed (failMsg 0 0 (some e)),
       { attempt := 0, retryCount := 1, frameworkRestarts := 0, ensureCalls := 1,
         testCalls := 1, healthCalls := 0, sleepCalls := 0, lastErr := some e }) := by
  have hret : isRetryableError e = false := by
    rw [isRetryableError, List.any_eq_false]
    intro p hp
    simp [hpat p hp]
  simp [runTestWithRestart, retrySt0, hens, htest, hret]

/-- Witness for C7: a "bad request" first failure stops the cell after a
single attempt with no sleeping. -/
theorem nonretryable_immediate_fail_witness :
    runTestWithRestart
      { maxRetries := 5, ensureOk := fun _ => true, testErr := fun _ => some "bad request",
        healthy := fun _ => true } 6 retrySt0 =
      (.failed (failMsg 0 0 (some "bad request")),
       { attempt := 0, retryCount := 1, frameworkRestarts := 0, ensureCalls := 1,
         testCalls := 1, healthCalls := 0, sleepCalls := 0, lastErr := some "bad request" }) := by
  have h := nonretryable_immediate_fail
    { maxRetries := 5, ensureOk := fun _ => true, testErr := fun _ => some "bad request",
      healthy := fun _ => true } "bad request" rfl rfl (by decide)
  simpa using h

/-! ## C8 -/

/-- C8: `parseLatency` normalizes unit-suffixed latency strings to
nanosecond durations: `"12.34ms"` is 12.34 milliseconds, `"500us"` is
0.5 milliseconds, `"1.5s"` is 1500 milliseconds, and the unitless `"7"`
is 7 milliseconds. -/
theorem parseLatency_round_trip :
    parseLatency "12.34ms" = some 12340000 ∧
    parseLatency "500us" = some 500000 ∧
    parseLatency "1.5s" = some 1500000000 ∧
    parseLatency "7" = some 7000000 := by
  decide

/-! ## C1 -/

/-- `shouldSkipTest` fires exactly when the cell's display-name composite
key is a member of the persisted completed list. -/
theorem shouldSkipTest_iff (cfg : RunnerConfig) (frameworkName scenarioName : String)
    (batch : Nat) (completedList : List String) :
    shouldSkipTest cfg frameworkName scenarioName batch (some completedList) = true ↔
      cellKey cfg (frameworkName, scenarioName, batch) ∈ completedList := by
  simp only [shouldSkipTest, cellKey, frameworkDisplayName, scenarioDisplayName,
    List.any_eq_true, beq_iff_eq]
  exact ⟨fun ⟨x, hx, he⟩ => he ▸ hx, fun h => ⟨_, h, rfl⟩⟩

/-- The skipped cells are exactly the matrix cells whose composite key is
in the persisted completed list. -/
theorem skippedCells_eq_filter_mem (cfg : RunnerConfig) (completedList : List String) :
    skippedCells cfg (some completedList) =
      (matrixCells cfg).filter (fun cell => decide (cellKey cfg cell ∈ completedList)) := by
  unfold skippedCells
  apply List.filter_congr
  intro x _
  rw [Bool.eq_iff_iff, decide_eq_true_eq]
  exact shouldSkipTest_iff cfg x.fst x.snd.fst x.snd.snd completedList

/-- C1: resuming a matrix run with a persisted snapshot of N
completed-test keys skips exactly the cells whose display-name composite
key is a member of the completed list (key membership, not position), and
— when the persisted keys are the distinct keys of cells of this same
matrix, whose cells have pairwise distinct keys — the number of skipped
cells is exactly N and the number of executed cells is exactly
total − N. -/
theorem resume_skips_exactly_completed (cfg : RunnerConfig) (completedList : List String)
    (hnd : completedList.Nodup)
    (hsub : ∀ k ∈ completedList, k ∈ (matrixCells cfg).map (cellKey cfg))
    (hinj : ((matrixCells cfg).map (cellKey cfg)).Nodup) :
    (∀ cell ∈ matrixCells cfg,
      (cell ∈ skippedCells cfg (some completedList) ↔ cellKey cfg cell ∈ completedList) ∧
      (cell ∈ executedCells cfg (some completedList) ↔ cellKey cfg cell ∉ completedList)) ∧
    (skippedCells cfg (some completedList)).length = completedList.length ∧
    (executedCells cfg (some completedList)).length =
      (matrixCells cfg).length - completedList.length := by
  have hskip : (skippedCells cfg (some completedList)).length = completedList.length := by
    rw [skippedCells_eq_filter_mem]
    have hcount : ((matrixCells cfg).filter
          (fun cell => decide (cellKey cfg cell ∈ completedList))).length =
        (((matrixCells cfg).map (cellKey cfg)).filter
          (fun k => decide (k ∈ completedList))).length := by
      rw [← List.countP_eq_length_filter, ← List.countP_eq_length_filter, List.countP_map]
      rfl
    rw [hcount]
    exact length_filter_mem_of_nodup _ _ hinj hnd hsub
  refine ⟨?_, hskip, ?_⟩
  · intro cell hcell
    constructor
    · unfold skippedCells
      rw [List.mem_filter]
      constructor
      · intro h
        exact (shouldSkipTest_iff cfg cell.fst cell.snd.fst cell.snd.snd completedList).mp
          (by exact h.2)
      · intro h
        exact ⟨hcell,
          (shouldSkipTest_iff cfg cell.fst cell.snd.fst cell.snd.snd completedList).mpr h⟩
    · unfold executedCells
      rw [List.mem_filter]
      constructor
      · intro h hmem
        have := (shouldSkipTest_iff cfg cell.fst cell.snd.fst cell.snd.snd completedList).mpr hmem
        rw [this] at h
        exact absurd h.2 (by simp)
      · intro h
        refine ⟨hcell, ?_⟩
        cases hb : shouldSkipTest cfg cell.fst cell.snd.fst cell.snd.snd (some completedList) with
        | false => rfl
        | true =>
            exact absurd
              ((shouldSkipTest_iff cfg cell.fst cell.snd.fst cell.snd.snd completedList).mp hb) h
  · have hx := length_filter_not
      (fun cell => shouldSkipTest cfg cell.fst cell.snd.fst cell.snd.snd (some completedList))
      (matrixCells cfg)
    unfold executedCells
    rw [hx]
    unfold skippedCells at hskip
    rw [hskip]

/-- Witness for C1: four cells, one persisted key — exactly that cell is
skipped and the other three are executed. -/
theorem resume_skips_exactly_completed_witness :
    skippedCells resumeDemoConfig (some ["Flash_Ping_1"]) = [("flash", "ping", 1)] ∧
    (skippedCells resumeDemoConfig (some ["Flash_Ping_1"])).length = 1 ∧
    (executedCells resumeDemoConfig (some ["Flash_Ping_1"])).length = 3 := by
  have h := resume_skips_exactly_completed resumeDemoConfig ["Flash_Ping_1"]
    (by decide) (by decide) (by decide)
  refine ⟨by decide, h.2.1, ?_⟩
  rw [h.2.2]
  decide

/-! ## C10 -/

/-- C10: with the `wrk` tool and `DefaultRequests > 0`, the tool is never
handed a request count: the full argument list is threads, connections,
then `-d` with `max(1, DefaultRequests / 10000)` seconds rounded to a
whole number (half to even, as `%.0f` prints), then the optional
keep-alive header and POST script, then the URL — the request figure
enters only through the `-d` duration. -/
theorem wrk_requests_become_duration (cfg : BenchmarkCfg) (framework : FrameworkCfg)
    (scenarioC : ScenarioCfg) (hreq : 0 < cfg.DefaultRequests) :
    prepareWrkCommandArgs cfg framework scenarioC =
      ["-t", toString cfg.Threads, "-c", toString cfg.DefaultConnections, "-d",
        toString (roundHalfEven (max 1 ((cfg.DefaultRequests : ℚ) / 10000))) ++ "s"] ++
      (if cfg.KeepAlive then ["-H", "Connection: keep-alive"] else []) ++
      (if scenarioC.Method = "POST" then ["-s", "wrk/post.lua"] else []) ++
      [framework.URL ++ scenarioC.Path] := by
  have hmax : (if ((cfg.DefaultRequests : ℚ) / 10000) < 1 then (1 : ℚ)
        else ((cfg.DefaultRequests : ℚ) / 10000)) =
      max 1 ((cfg.DefaultRequests : ℚ) / 10000) := by
    rcases lt_or_le ((cfg.DefaultRequests : ℚ) / 10000) 1 with h | h
    · rw [if_pos h]
      exact (max_eq_left h.le).symm
    · rw [if_neg (not_lt.mpr h)]
      exact (max_eq_right h).symm
  simp only [prepareWrkCommandArgs]
  rw [if_pos hreq, hmax]
  by_cases hka : cfg.KeepAlive <;> by_cases hpost : scenarioC.Method = "POST" <;>
    simp [hka, hpost]

/-- Witness for C10: 4500 configured requests become a 1-second
duration-based `wrk` invocation. -/
theorem wrk_requests_become_duration_witness :
    prepareWrkCommandArgs
      { Threads := 4, DefaultRequests := 4500, DefaultConnections := 100,
        DefaultDuration := "30s", KeepAlive := true }
      { Name := "Flash", URL := "http://localhost:17780" }
      { Name := "JSON POST", Method := "POST", Path := "/json" } =
      ["-t", "4", "-c", "100", "-d", "1s", "-H", "Connection: keep-alive",
       "-s", "wrk/post.lua", "http://localhost:17780/json"] := by
  have h := wrk_requests_become_duration
    { Threads := 4, DefaultRequests := 4500, DefaultConnections := 100,
      DefaultDuration := "30s", KeepAlive := true }
    { Name := "Flash", URL := "http://localhost:17780" }
    { Name := "JSON POST", Method := "POST", Path := "/json" }
    (by norm_num)
  rw [h]
  have hv : max (1 : ℚ) (((4500 : Int) : ℚ) / 10000) = 1 := max_eq_left (by norm_num)
  have hr : roundHalfEven (1 : ℚ) = 1 := by norm_num [roundHalfEven]
  simp only [hv, hr]
  decide

end GoBench
